import Mathlib

/-!
Verification of the physics sandbox subsystem of the `threejs-course-angular`
repository (file `src/unnamed/part_007`, the `Physics` Angular component).

The development shallowly embeds, from the TypeScript source:
  * the object pool (`objectsToUpdate`) and its operations
    `removeObject` / `enforcePoolLimit` / `createSphere` / `createBox`
    (pool-list effect), the GUI `onReset` loop, and the `ngOnDestroy` teardown;
  * the kill-zone sweep performed inside `tick` (bounds `killBounds`);
  * the wind and vortex force computations inside `tick`;
  * the time-scaled delta handed to `world.step`;
  * the hurricane particle update `updateHurricane`;
  * a registration-state model for the scene-graph / physics-world / pool
    membership of spawned objects, and a loop state machine for the
    `Running → Disposed` lifecycle.

Real-number quantities (positions, forces, deltas) are modelled with `ℝ`;
`Math.hypot(x, z)` is `Real.sqrt (x ^ 2 + z ^ 2)`.
-/

namespace PhysicsSandbox

/-- Pool capacity: `private readonly maxObjects = 120`. -/
def maxObjects : ℕ := 120

/-- Kill-zone lower Y bound: `killBounds.yMin = -20`. -/
noncomputable def yMin : ℝ := -20

/-- Kill-zone horizontal radius bound: `killBounds.radiusMax = 40`. -/
noncomputable def radiusMax : ℝ := 40

/-- Pool-list effect of `removeObject`: `indexOf` followed by `splice(index, 1)`
removes the first occurrence of the entry when present and does nothing when
`indexOf` returns `-1`.  This is exactly `List.erase`. -/
def removeEntry {α : Type} [BEq α] (pool : List α) (e : α) : List α :=
  pool.erase e

/-- Embedding of `enforcePoolLimit`: when `objectsToUpdate.length >= maxObjects`
it calls `removeObject(objectsToUpdate[0])` (the oldest entry, index 0).  The
`[]` branch is unreachable in that case since the length is positive. -/
def enforcePoolLimit {α : Type} [BEq α] (pool : List α) : List α :=
  if maxObjects ≤ pool.length then
    match pool with
    | [] => pool
    | e :: _ => removeEntry pool e
  else pool

/-- Pool-list effect of a spawn (`createSphere` / `createBox`): first
`enforcePoolLimit()`, then `objectsToUpdate.push({ mesh, body })`. -/
def spawnObject {α : Type} [BEq α] (pool : List α) (a : α) : List α :=
  enforcePoolLimit pool ++ [a]

/-- States of the pool after each spawn of a sequence of spawn operations
(the seed state included). -/
def spawnTrace {α : Type} [BEq α] (seed : List α) : List α → List (List α)
  | [] => [seed]
  | a :: ops => seed :: spawnTrace (spawnObject seed a) ops

/-- Pool-list effect of the GUI `onReset` callback (and of the eviction loop in
`ngOnDestroy`): iterate over a snapshot `[...objectsToUpdate]` of the live list
and call `removeObject` on each entry. -/
def resetAll {α : Type} [BEq α] (pool : List α) : List α :=
  List.foldl (fun live o => removeEntry live o) pool pool

/-- Kill-zone sweep inside `tick`: iterate over a snapshot of the pool taken at
the start of the loop and call `removeObject` on each entry whose position
violates the kill bounds (`p` decides the violation). -/
def sweepBy {α : Type} [BEq α] (p : α → Prop) [DecidablePred p]
    (pool : List α) : List α :=
  List.foldl (fun live o => if p o then removeEntry live o else live) pool pool

/-- Occurrence count after folding conditional erases of `f`-images of a
snapshot `s` over a list `ls`: each snapshot element satisfying `p` erases one
occurrence of its image. -/
theorem count_foldl_erase {α β : Type} [BEq β] [LawfulBEq β]
    (p : α → Prop) [DecidablePred p] (f : α → β) (s : List α) :
    ∀ (ls : List β) (x : β),
      List.count x
          (List.foldl (fun acc e => if p e then acc.erase (f e) else acc) ls s)
        = List.count x ls - List.count x ((s.filter fun e => decide (p e)).map f) := by
  induction s with
  | nil => intro ls x; simp
  | cons e s ih =>
      intro ls x
      by_cases hp : p e
      · have hfilter :
            ((e :: s).filter fun e' => decide (p e')).map f
              = f e :: ((s.filter fun e' => decide (p e')).map f) := by
          simp [List.filter_cons, hp]
        rw [List.foldl_cons, if_pos hp, ih, hfilter, List.count_cons,
          List.count_erase]
        by_cases hx : x = f e
        · simp [hx, Nat.sub_sub, Nat.add_comm]
        · have : (f e == x) = false := by
            simp [beq_iff_eq]
            exact fun h => hx h.symm
          simp [hx, this]
      · have hfilter :
            ((e :: s).filter fun e' => decide (p e')).map f
              = (s.filter fun e' => decide (p e')).map f := by
          simp [List.filter_cons, hp]
        rw [List.foldl_cons, if_neg hp, ih, hfilter]

/-- Occurrence count after a sweep: a violating entry loses all its occurrences
(the snapshot contains as many copies as the live list), a surviving entry
keeps them all. -/
theorem count_sweepBy {α : Type} [BEq α] [LawfulBEq α] (p : α → Prop) [DecidablePred p]
    (pool : List α) (x : α) :
    List.count x (sweepBy p pool) = if p x then 0 else List.count x pool := by
  have h := count_foldl_erase p (fun e => e) pool pool x
  have hsweep : sweepBy p pool
      = List.foldl (fun acc e => if p e then acc.erase ((fun e => e) e) else acc)
          pool pool := rfl
  rw [hsweep, h]
  simp only [List.map_id_fun', id]
  by_cases hp : p x
  · have hc : List.count x (pool.filter fun e => decide (p e)) = List.count x pool :=
      List.count_filter (by simpa using hp)
    simp [hp, hc]
  · have hc : List.count x (pool.filter fun e => decide (p e)) = 0 := by
      rw [List.count_eq_zero]
      intro hm
      rw [List.mem_filter] at hm
      exact hp (by simpa using hm.2)
    simp [hp, hc]

/-- Membership after a sweep: exactly the non-violating entries survive. -/
theorem mem_sweepBy {α : Type} [BEq α] [LawfulBEq α] (p : α → Prop) [DecidablePred p]
    (pool : List α) (x : α) :
    x ∈ sweepBy p pool ↔ x ∈ pool ∧ ¬ p x := by
  rw [← List.count_pos_iff (l := sweepBy p pool), count_sweepBy]
  by_cases hp : p x
  · simp [hp]
  · simp [hp, List.count_pos_iff]

/-- Resetting empties the pool: every snapshot entry erases one of its own
occurrences from the live list, and the snapshot is the live list itself. -/
theorem resetAll_eq_nil {α : Type} [BEq α] [LawfulBEq α] (pool : List α) :
    resetAll pool = [] := by
  have hkey : resetAll pool = sweepBy (fun _ : α => True) pool := by
    rw [resetAll, sweepBy]
    simp [removeEntry]
  rw [hkey]
  rw [List.eq_nil_iff_forall_not_mem]
  intro a ha
  exact (mem_sweepBy _ pool a).1 ha |>.2 trivial

/-- One spawn keeps the pool within the cap. -/
theorem spawnObject_length_le {α : Type} [BEq α] [LawfulBEq α] (pool : List α) (a : α)
    (h : pool.length ≤ maxObjects) :
    (spawnObject pool a).length ≤ maxObjects := by
  match pool with
  | [] =>
      have henf : enforcePoolLimit ([] : List α) = [] := by
        rw [enforcePoolLimit.eq_def]
        simp [maxObjects]
      rw [spawnObject, henf]
      simp [maxObjects]
  | e :: rest =>
      rw [spawnObject]
      by_cases hc : maxObjects ≤ (e :: rest).length
      · have hlen : (e :: rest).length = maxObjects := Nat.le_antisymm h hc
        have henf : enforcePoolLimit (e :: rest) = removeEntry (e :: rest) e := by
          rw [enforcePoolLimit.eq_def, if_pos hc]
        rw [henf]
        simp only [removeEntry, List.erase_cons_head]
        simp only [List.length_cons] at hlen
        simp
        omega
      · have henf : enforcePoolLimit (e :: rest) = e :: rest := by
          rw [enforcePoolLimit.eq_def, if_neg hc]
        rw [henf]
        simp only [List.length_cons] at h hc
        simp
        omega

/-- C1. For every sequence of spawn operations (`createSphere` / `createBox`)
starting from a pool within the cap, the pool holds at most
`maxObjects = 120` entries after each spawn; and a spawn issued when the pool
holds exactly 120 entries first evicts the oldest entry (index 0) and then
appends the new one. -/
theorem spawn_pool_bound {α : Type} [BEq α] [LawfulBEq α] (seed : List α)
    (hseed : seed.length ≤ maxObjects) (ops : List α) :
    (∀ p ∈ spawnTrace seed ops, p.length ≤ maxObjects) ∧
      (∀ (pool : List α) (a : α), pool.length = maxObjects →
        spawnObject pool a = pool.tail ++ [a]) := by
  constructor
  · induction ops generalizing seed with
    | nil =>
        intro p hp
        rw [spawnTrace] at hp
        simp only [List.mem_singleton] at hp
        exact hp ▸ hseed
    | cons a ops ih =>
        intro p hp
        rw [spawnTrace] at hp
        simp only [List.mem_cons] at hp
        rcases hp with hp | hp
        · exact hp ▸ hseed
        · exact ih (spawnObject seed a) (spawnObject_length_le seed a hseed) p hp
  · intro pool a hlen
    match pool, hlen with
    | e :: rest, hlen =>
        have hc : maxObjects ≤ (e :: rest).length := Nat.le_of_eq hlen.symm
        rw [spawnObject]
        have henf : enforcePoolLimit (e :: rest) = removeEntry (e :: rest) e := by
          rw [enforcePoolLimit.eq_def, if_pos hc]
        rw [henf]
        simp [removeEntry, List.erase_cons_head]

/-- Witness for C1: from a full pool of 120 entries, spawning entry `500`
evicts the entry at index 0 and appends `500`. -/
theorem spawn_pool_bound_witness :
    (List.range 120).length ≤ maxObjects ∧
      spawnObject (List.range 120) 500 = (List.range 120).tail ++ [500] := by
  refine ⟨by simp [maxObjects], ?_⟩
  exact (spawn_pool_bound (List.range 120) (by simp [maxObjects]) []).2
    (List.range 120) 500 (by simp [maxObjects])

/-- C7. Eviction is idempotent: `removeObject` on an entry absent from the pool
list leaves the pool list unchanged (its `indexOf` is `-1`, so no `splice`
runs), and the GUI reset loop leaves the pool empty, also when run twice in a
row. -/
theorem eviction_idempotent {α : Type} [BEq α] [LawfulBEq α] :
    (∀ (pool : List α) (e : α), e ∉ pool → removeEntry pool e = pool) ∧
      (∀ pool : List α, resetAll pool = [] ∧ resetAll (resetAll pool) = []) := by
  constructor
  · intro pool e he
    exact List.erase_of_not_mem he
  · intro pool
    exact ⟨resetAll_eq_nil pool, resetAll_eq_nil _⟩

/-- Witness for C7: removing the absent entry `(3, 4)` from the one-entry pool
`[(1, 2)]` leaves it unchanged. -/
theorem eviction_idempotent_witness :
    removeEntry [(1, 2)] (3, 4) = [(1, 2)] :=
  eviction_idempotent.1 [(1, 2)] (3, 4) (by simp)

/-- One pooled entry as observed by the tick loop: identity of the JavaScript
object (reference identity used by `indexOf`), the body position and
orientation, the mass, and the force accumulated by `applyForce`. -/
structure Body3 where
  id : ℕ
  pos : ℝ × ℝ × ℝ
  quat : ℝ × ℝ × ℝ × ℝ
  mass : ℝ
  force : ℝ × ℝ × ℝ

noncomputable instance : DecidableEq Body3 := Classical.decEq Body3

/-- Kill-zone test from `tick`:
`pos.y < killBounds.yMin || Math.hypot(pos.x, pos.z) > killBounds.radiusMax`,
with positions written as `(x, y, z)` triples. -/
noncomputable def killViolation (pos : ℝ × ℝ × ℝ) : Prop :=
  pos.2.1 < yMin ∨ radiusMax < Real.sqrt (pos.1 ^ 2 + pos.2.2 ^ 2)

noncomputable instance : DecidablePred killViolation :=
  fun _ => Classical.propDecidable _

noncomputable instance : DecidablePred (fun o : Body3 => killViolation o.pos) :=
  fun _ => Classical.propDecidable _

/-- Kill-zone sweep of `tick`: iterate over the snapshot `[...objectsToUpdate]`
and `removeObject` every entry whose position violates the kill bounds. -/
noncomputable def sweepOutOfBounds (pool : List Body3) : List Body3 :=
  sweepBy (fun o => killViolation o.pos) pool

/-- Test object from the spec: body at `y = -25` (below `yMin = -20`). -/
noncomputable def bodyLow : Body3 :=
  ⟨1, (0, -25, 0), (0, 0, 0, 1), 1, (0, 0, 0)⟩

/-- Test object from the spec: body at horizontal radius 45 (beyond
`radiusMax = 40`). -/
noncomputable def bodyFar : Body3 :=
  ⟨2, (45, 0, 0), (0, 0, 0, 1), 1, (0, 0, 0)⟩

/-- Test object from the spec: body at `y = -19.9` and horizontal radius 39.9,
inside both bounds. -/
noncomputable def bodyOk : Body3 :=
  ⟨3, (39.9, -19.9, 0), (0, 0, 0, 1), 1, (0, 0, 0)⟩

/-- The body at `y = -25` violates the kill bounds. -/
theorem killViolation_bodyLow : killViolation bodyLow.pos := by
  left
  rw [bodyLow, yMin]
  norm_num

/-- The body at horizontal radius 45 violates the kill bounds. -/
theorem killViolation_bodyFar : killViolation bodyFar.pos := by
  right
  rw [bodyFar, radiusMax]
  rw [Real.lt_sqrt (by norm_num : (0:ℝ) ≤ 40)]
  norm_num

/-- The body at `y = -19.9` and horizontal radius 39.9 survives. -/
theorem not_killViolation_bodyOk : ¬ killViolation bodyOk.pos := by
  rw [killViolation, bodyOk, yMin, radiusMax]
  push_neg
  constructor
  · norm_num
  · rw [← not_lt, Real.lt_sqrt (by norm_num : (0:ℝ) ≤ 40)]
    norm_num

/-- C2. The kill-zone sweep of `tick` evicts exactly those live objects whose
body position satisfies `y < yMin` (= -20) or `hypot x z > radiusMax` (= 40):
membership in the swept pool is equivalent to membership in the pool plus
satisfying neither bound (so no surviving object violates either bound at the
end of the tick, positions being unchanged after the sweep within a tick); an
object at `y = -25` is removed, an object at horizontal radius 45 is removed,
and an object at `y = -19.9` with horizontal radius 39.9 survives. -/
theorem kill_sweep_exact :
    (∀ (pool : List Body3) (o : Body3),
        o ∈ sweepOutOfBounds pool ↔
          o ∈ pool ∧
            ¬ (o.pos.2.1 < yMin ∨
                radiusMax < Real.sqrt (o.pos.1 ^ 2 + o.pos.2.2 ^ 2))) ∧
      killViolation bodyLow.pos ∧ killViolation bodyFar.pos ∧
      ¬ killViolation bodyOk.pos ∧
      sweepOutOfBounds [bodyLow, bodyFar, bodyOk] = [bodyOk] := by
  refine ⟨?_, killViolation_bodyLow, killViolation_bodyFar,
    not_killViolation_bodyOk, ?_⟩
  · intro pool o
    exact mem_sweepBy (fun o : Body3 => killViolation o.pos) pool o
  · rw [sweepOutOfBounds, sweepBy]
    simp only [List.foldl_cons, List.foldl_nil, removeEntry]
    rw [if_pos killViolation_bodyLow, List.erase_cons_head]
    rw [if_pos killViolation_bodyFar, List.erase_cons_head]
    rw [if_neg not_killViolation_bodyOk]

/-- Witness for C2: the in-bounds test object survives the sweep of the
three-object pool. -/
theorem kill_sweep_exact_witness :
    bodyOk ∈ sweepOutOfBounds [bodyLow, bodyFar, bodyOk] :=
  (kill_sweep_exact.1 [bodyLow, bodyFar, bodyOk] bodyOk).mpr
    ⟨by simp, not_killViolation_bodyOk⟩

/-- Noise modulation factor of the wind field in `tick`: the force is scaled by
`0.5 + n` with
`n = sin(pos.x * 0.4 + windNoiseTime * 1.2) * 0.5 + cos(pos.z * 0.3 + windNoiseTime * 0.8) * 0.5`. -/
noncomputable def windNoiseFactor (x z t : ℝ) : ℝ :=
  0.5 + (Real.sin (x * 0.4 + t * 1.2) * 0.5 + Real.cos (z * 0.3 + t * 0.8) * 0.5)

/-- Wind force applied to a pooled body in `tick`: guarded by
`windEnabled && body.mass > 0`; the force is a copy of `windVector`, scaled by
the noise factor when `windUseNoise` is set, and `applyForce` is not called
otherwise (zero contribution). -/
noncomputable def windForce (enabled useNoise : Bool) (wv : ℝ × ℝ × ℝ)
    (mass x z t : ℝ) : ℝ × ℝ × ℝ :=
  if enabled ∧ 0 < mass then
    (if useNoise then windNoiseFactor x z t • wv else wv)
  else 0

/-- Vortex field force from `tick`: with `distXZ = Math.hypot(pos.x, pos.z)`,
the force is applied only under the guard
`distXZ > 0.0001 && distXZ < vortexRadius`; inside the guard it is the
tangential-swirl-plus-suction vector built from
`strengthFactor = 1 - distXZ / vortexRadius` and
`base = vortexStrength * strengthFactor`. -/
noncomputable def vortexForce (strength radius x z : ℝ) : ℝ × ℝ × ℝ :=
  let distXZ := Real.sqrt (x ^ 2 + z ^ 2)
  if 0.0001 < distXZ ∧ distXZ < radius then
    (-(z / distXZ) * (strength * (1 - distXZ / radius)),
     strength * 0.35 * (1 - distXZ / radius),
     x / distXZ * (strength * (1 - distXZ / radius)))
  else 0

/-- Vortex contribution to one pooled body: the whole block is additionally
guarded by `vortexEnabled && body.mass > 0`. -/
noncomputable def vortexApplied (enabled : Bool) (strength radius mass x z : ℝ) :
    ℝ × ℝ × ℝ :=
  if enabled ∧ 0 < mass then vortexForce strength radius x z else 0

/-- Counterexample for C4 as stated: at `x = 1/20000`, `z = 0` the horizontal
distance `d` satisfies `0 < d < vortexRadius = 4`, yet the code applies zero
force (the guard is `d > 0.0001`, and `1/20000 ≤ 0.0001`), while the claimed
formula gives a nonzero vertical component. -/
theorem vortex_small_d_counterexample :
    0 < Real.sqrt ((1/20000 : ℝ) ^ 2 + 0 ^ 2) ∧
      Real.sqrt ((1/20000 : ℝ) ^ 2 + 0 ^ 2) < 4 ∧
      vortexForce 25 4 (1/20000) 0 = 0 ∧
      25 * 0.35 * (1 - Real.sqrt ((1/20000 : ℝ) ^ 2 + 0 ^ 2) / 4) ≠ 0 := by
  have hd : Real.sqrt ((1/20000 : ℝ) ^ 2 + 0 ^ 2) = 1/20000 := by
    rw [show ((1/20000 : ℝ) ^ 2 + 0 ^ 2) = (1/20000 : ℝ) ^ 2 by ring]
    exact Real.sqrt_sq (by norm_num)
  refine ⟨by rw [hd]; norm_num, by rw [hd]; norm_num, ?_, by rw [hd]; norm_num⟩
  simp only [vortexForce]
  rw [if_neg]
  rw [hd]
  intro h
  have := h.1
  norm_num at this

/-- C4 (amended). For a dynamic body with the vortex field enabled, letting
`d = hypot(x, z)`: if `0.0001 < d < vortexRadius` the applied vortex force is
`(-z/d * base, strength * 0.35 * falloff, x/d * base)` with
`falloff = 1 - d/vortexRadius` and `base = strength * falloff`; otherwise
(including `0 < d ≤ 0.0001`, the case excluded by the `d > 0.0001` guard, and
`d ≥ vortexRadius` where the falloff reaches zero) the vortex contributes zero
force, and no division by zero occurs; when the field is disabled or the body
is static the contribution is likewise zero. -/
theorem vortex_force_cases (strength radius x z : ℝ) :
    (0.0001 < Real.sqrt (x ^ 2 + z ^ 2) → Real.sqrt (x ^ 2 + z ^ 2) < radius →
      vortexForce strength radius x z =
        (-(z / Real.sqrt (x ^ 2 + z ^ 2)) *
            (strength * (1 - Real.sqrt (x ^ 2 + z ^ 2) / radius)),
         strength * 0.35 * (1 - Real.sqrt (x ^ 2 + z ^ 2) / radius),
         x / Real.sqrt (x ^ 2 + z ^ 2) *
            (strength * (1 - Real.sqrt (x ^ 2 + z ^ 2) / radius)))) ∧
    (¬ (0.0001 < Real.sqrt (x ^ 2 + z ^ 2) ∧ Real.sqrt (x ^ 2 + z ^ 2) < radius) →
      vortexForce strength radius x z = 0) ∧
    (∀ (enabled : Bool) (mass : ℝ), enabled ∧ 0 < mass →
      vortexApplied enabled strength radius mass x z = vortexForce strength radius x z) ∧
    (∀ (enabled : Bool) (mass : ℝ), ¬ (enabled ∧ 0 < mass) →
      vortexApplied enabled strength radius mass x z = 0) := by
  refine ⟨?_, ?_, ?_, ?_⟩
  · intro h₁ h₂
    simp only [vortexForce]
    rw [if_pos ⟨h₁, h₂⟩]
  · intro h
    simp only [vortexForce]
    rw [if_neg h]
  · intro enabled mass h
    rw [vortexApplied, if_pos h]
  · intro enabled mass h
    rw [vortexApplied, if_neg h]

/-- Witness for C4 (amended): at `x = 3`, `z = 0` (distance 3, inside the
guard) the vortex force is the claimed formula. -/
theorem vortex_force_cases_witness :
    0.0001 < Real.sqrt ((3:ℝ) ^ 2 + 0 ^ 2) ∧
      Real.sqrt ((3:ℝ) ^ 2 + 0 ^ 2) < 4 ∧
      vortexForce 25 4 3 0 =
        (-(0 / Real.sqrt ((3:ℝ) ^ 2 + 0 ^ 2)) *
            (25 * (1 - Real.sqrt ((3:ℝ) ^ 2 + 0 ^ 2) / 4)),
         25 * 0.35 * (1 - Real.sqrt ((3:ℝ) ^ 2 + 0 ^ 2) / 4),
         3 / Real.sqrt ((3:ℝ) ^ 2 + 0 ^ 2) *
            (25 * (1 - Real.sqrt ((3:ℝ) ^ 2 + 0 ^ 2) / 4))) := by
  have hd : Real.sqrt ((3:ℝ) ^ 2 + 0 ^ 2) = 3 := by
    rw [show ((3:ℝ) ^ 2 + 0 ^ 2) = (3:ℝ) ^ 2 by ring]
    exact Real.sqrt_sq (by norm_num)
  have h₁ : (0.0001 : ℝ) < Real.sqrt ((3:ℝ) ^ 2 + 0 ^ 2) := by rw [hd]; norm_num
  have h₂ : Real.sqrt ((3:ℝ) ^ 2 + 0 ^ 2) < 4 := by rw [hd]; norm_num
  exact ⟨h₁, h₂, (vortex_force_cases 25 4 3 0).1 h₁ h₂⟩

/-- Counterexample for C5 as stated: the noise modulation factor is not always
within `[0, 1.5]` — at `x = -5π/4`, `z = 10π/3`, `t = 0` it equals `-1/2`. -/
theorem wind_noise_factor_counterexample :
    windNoiseFactor (-5 * Real.pi / 4) (10 * Real.pi / 3) 0 = -(1/2) ∧
      windNoiseFactor (-5 * Real.pi / 4) (10 * Real.pi / 3) 0 < 0 := by
  have hs : Real.sin ((-5 * Real.pi / 4) * 0.4 + 0 * 1.2) = -1 := by
    have h : (-5 * Real.pi / 4) * 0.4 + 0 * 1.2 = -(Real.pi / 2) := by ring
    rw [h, Real.sin_neg, Real.sin_pi_div_two]
  have hc : Real.cos ((10 * Real.pi / 3) * 0.3 + 0 * 0.8) = -1 := by
    have h : (10 * Real.pi / 3) * 0.3 + 0 * 0.8 = Real.pi := by ring
    rw [h, Real.cos_pi]
  constructor
  · rw [windNoiseFactor, hs, hc]; norm_num
  · rw [windNoiseFactor, hs, hc]; norm_num

/-- C5 (amended). Wind is applied only when the field is enabled and the body
has positive mass (static bodies receive no force); without noise the applied
force is exactly the configured wind vector, and with noise it is the wind
vector scaled by `0.5 + 0.5 * sin(x * 0.4 + t * 1.2) + 0.5 * cos(z * 0.3 + t * 0.8)`,
a factor that lies within `[-1/2, 3/2]` for every body position and elapsed
time. -/
theorem wind_force_gating_bounds (wv : ℝ × ℝ × ℝ) (mass x z t : ℝ) :
    (∀ useNoise : Bool, windForce false useNoise wv mass x z t = 0) ∧
    (mass ≤ 0 → ∀ e n : Bool, windForce e n wv mass x z t = 0) ∧
    (0 < mass → windForce true false wv mass x z t = wv) ∧
    (0 < mass →
      windForce true true wv mass x z t = windNoiseFactor x z t • wv) ∧
    (-(1/2) ≤ windNoiseFactor x z t ∧ windNoiseFactor x z t ≤ 3/2) := by
  refine ⟨?_, ?_, ?_, ?_, ?_, ?_⟩
  · intro useNoise
    rw [windForce, if_neg]
    intro h
    exact Bool.false_ne_true h.1
  · intro hm e n
    rw [windForce, if_neg]
    intro h
    exact absurd h.2 (not_lt.mpr hm)
  · intro hm
    rw [windForce, if_pos ⟨rfl, hm⟩]
    rfl
  · intro hm
    rw [windForce, if_pos ⟨rfl, hm⟩]
    rfl
  · have h₁ := Real.neg_one_le_sin (x * 0.4 + t * 1.2)
    have h₂ := Real.neg_one_le_cos (z * 0.3 + t * 0.8)
    rw [windNoiseFactor]
    nlinarith
  · have h₁ := Real.sin_le_one (x * 0.4 + t * 1.2)
    have h₂ := Real.cos_le_one (z * 0.3 + t * 0.8)
    rw [windNoiseFactor]
    nlinarith

/-- Witness for C5 (amended): a dynamic body of mass 1 with wind enabled and
noise off receives exactly the configured wind vector `(8, 0, 0)`. -/
theorem wind_force_gating_bounds_witness :
    (0 : ℝ) < 1 ∧ windForce true false (8, 0, 0) 1 0 0 0 = (8, 0, 0) :=
  ⟨by norm_num, (wind_force_gating_bounds (8, 0, 0) 1 0 0 0).2.2.1 (by norm_num)⟩

/-- Mapping a list after erasing an element whose image occurs exactly once:
`f` commutes with `erase` provided the image list has no duplicates. -/
theorem map_erase_of_nodup {α β : Type} [BEq α] [LawfulBEq α] [BEq β] [LawfulBEq β]
    (f : α → β) (l : List α) (e : α) (hn : (l.map f).Nodup) (he : e ∈ l) :
    (l.erase e).map f = (l.map f).erase (f e) := by
  induction l with
  | nil => cases he
  | cons a l ih =>
      by_cases hae : a = e
      · subst hae
        rw [List.erase_cons_head, List.map_cons, List.erase_cons_head]
      · have he' : e ∈ l := by
          rcases List.mem_cons.mp he with h | h
          · exact absurd h.symm hae
          · exact h
        have hfae : f a ≠ f e := by
          intro hf
          have hfa : f a ∉ l.map f := (List.nodup_cons.mp (by simpa using hn)).1
          exact hfa (hf ▸ List.mem_map_of_mem f he')
        rw [List.erase_cons, if_neg (by simp [hae]), List.map_cons,
          List.map_cons, List.erase_cons, if_neg (by simp [hfae]),
          ih (List.nodup_cons.mp (by simpa using hn)).2 he']

/-- Registration state for spawned `SimulatedObject`s: the mesh ids present in
the scene graph, the body ids present in the physics world, the pool list of
(mesh, body) pairs, the ghost list of already-evicted entries (the entry
objects a caller can still hold a reference to), and the fresh-id counter
(`new THREE.Mesh` / `new CANNON.Body` always produce fresh objects).  The
static floor and the hurricane particle system are fixed nodes outside the
pool and are not tracked. -/
structure RegState where
  scene : List ℕ
  world : List ℕ
  pool : List (ℕ × ℕ)
  evicted : List (ℕ × ℕ)
  next : ℕ

/-- Embedding of `removeObject(entry)`: detach the collision listener, remove
the body from the world, remove the mesh from the scene, and splice the entry
out of the pool list when present (each removal is a no-op on an absent
element, as in the engine and scene-graph APIs). -/
def removeObjectR (s : RegState) (e : ℕ × ℕ) : RegState :=
  { scene := s.scene.erase e.1
    world := s.world.erase e.2
    pool := s.pool.erase e
    evicted := if e ∈ s.pool then e :: s.evicted else s.evicted
    next := s.next }

/-- Embedding of `createSphere` / `createBox`: `enforcePoolLimit()` (evict the
entry at index 0 when at capacity), then add the fresh mesh to the scene, the
fresh body to the world, and push the (mesh, body) entry onto the pool. -/
def spawnObjectR (s : RegState) : RegState :=
  let s1 := if maxObjects ≤ s.pool.length then
      match s.pool with
      | [] => s
      | e :: _ => removeObjectR s e
    else s
  { scene := s1.scene ++ [s.next]
    world := s1.world ++ [s.next + 1]
    pool := s1.pool ++ [(s.next, s.next + 1)]
    evicted := s1.evicted
    next := s.next + 2 }

/-- Reachable registration states: the empty initial state, closed under spawn
and under `removeObject` on any entry object a caller can hold (a live pool
entry or a previously evicted one — `removeObject` is only ever invoked with
entry objects constructed by the spawner). -/
inductive ReachR : RegState → Prop
  | init : ReachR ⟨[], [], [], [], 0⟩
  | spawn {s : RegState} : ReachR s → ReachR (spawnObjectR s)
  | remove {s : RegState} (e : ℕ × ℕ) (he : e ∈ s.pool ∨ e ∈ s.evicted) :
      ReachR s → ReachR (removeObjectR s e)

/-- Internal invariant of the registration state: the scene and world are the
componentwise images of the pool, ids are duplicate-free and below the
fresh-id counter, and evicted entries are absent from both images. -/
def InvR (s : RegState) : Prop :=
  s.scene = s.pool.map Prod.fst ∧
  s.world = s.pool.map Prod.snd ∧
  (s.pool.map Prod.fst).Nodup ∧
  (s.pool.map Prod.snd).Nodup ∧
  (∀ e ∈ s.pool, e.1 < s.next ∧ e.2 < s.next) ∧
  (∀ e ∈ s.evicted, e.1 ∉ s.pool.map Prod.fst ∧ e.2 ∉ s.pool.map Prod.snd ∧
      e.1 < s.next ∧ e.2 < s.next)

/-- The invariant is preserved by `removeObject` on any held entry (a live
pool entry or a previously evicted one). -/
theorem invR_remove (s : RegState) (e : ℕ × ℕ)
    (he : e ∈ s.pool ∨ e ∈ s.evicted) (hs : InvR s) :
    InvR (removeObjectR s e) := by
  obtain ⟨hsc, hw, hnf, hns, hfresh, hev⟩ := hs
  by_cases hp : e ∈ s.pool
  · refine ⟨?_, ?_, ?_, ?_, ?_, ?_⟩
    · show s.scene.erase e.1 = (s.pool.erase e).map Prod.fst
      rw [hsc, map_erase_of_nodup Prod.fst s.pool e hnf hp]
    · show s.world.erase e.2 = (s.pool.erase e).map Prod.snd
      rw [hw, map_erase_of_nodup Prod.snd s.pool e hns hp]
    · show ((s.pool.erase e).map Prod.fst).Nodup
      rw [map_erase_of_nodup Prod.fst s.pool e hnf hp]
      exact hnf.erase _
    · show ((s.pool.erase e).map Prod.snd).Nodup
      rw [map_erase_of_nodup Prod.snd s.pool e hns hp]
      exact hns.erase _
    · intro e' he'
      exact hfresh e' (List.mem_of_mem_erase he')
    · intro e' he'
      show e'.1 ∉ (s.pool.erase e).map Prod.fst ∧
        e'.2 ∉ (s.pool.erase e).map Prod.snd ∧
        e'.1 < s.next ∧ e'.2 < s.next
      rw [map_erase_of_nodup Prod.fst s.pool e hnf hp,
        map_erase_of_nodup Prod.snd s.pool e hns hp]
      have he'' : e' ∈ e :: s.evicted := by
        simpa [removeObjectR, if_pos hp] using he'
      rcases List.mem_cons.mp he'' with h | h
      · subst h
        refine ⟨?_, ?_, (hfresh e' hp).1, (hfresh e' hp).2⟩
        · rw [hnf.mem_erase_iff]
          simp
        · rw [hns.mem_erase_iff]
          simp
      · obtain ⟨h1, h2, h3, h4⟩ := hev e' h
        exact ⟨fun hm => h1 (List.mem_of_mem_erase hm),
          fun hm => h2 (List.mem_of_mem_erase hm), h3, h4⟩
  · have hee : e ∈ s.evicted := he.resolve_left hp
    obtain ⟨h1, h2, _, _⟩ := hev e hee
    have hpool : s.pool.erase e = s.pool := List.erase_of_not_mem hp
    have hscene : s.scene.erase e.1 = s.scene := by
      rw [hsc]; exact List.erase_of_not_mem h1
    have hworld : s.world.erase e.2 = s.world := by
      rw [hw]; exact List.erase_of_not_mem h2
    refine ⟨?_, ?_, ?_, ?_, ?_, ?_⟩
    · show s.scene.erase e.1 = (s.pool.erase e).map Prod.fst
      rw [hscene, hpool, hsc]
    · show s.world.erase e.2 = (s.pool.erase e).map Prod.snd
      rw [hworld, hpool, hw]
    · show ((s.pool.erase e).map Prod.fst).Nodup
      rw [hpool]; exact hnf
    · show ((s.pool.erase e).map Prod.snd).Nodup
      rw [hpool]; exact hns
    · intro e' he'
      have he'' : e' ∈ s.pool.erase e := he'
      rw [hpool] at he''
      exact hfresh e' he''
    · intro e' he'
      have he'' : e' ∈ s.evicted := by
        simpa [removeObjectR, if_neg hp] using he'
      obtain ⟨g1, g2, g3, g4⟩ := hev e' he''
      show e'.1 ∉ (s.pool.erase e).map Prod.fst ∧
        e'.2 ∉ (s.pool.erase e).map Prod.snd ∧
        e'.1 < s.next ∧ e'.2 < s.next
      rw [hpool]
      exact ⟨g1, g2, g3, g4⟩

/-- Appending a freshly numbered entry preserves the invariant. -/
theorem invR_append (nx : ℕ) (s1 : RegState) (h1 : InvR s1) (hn : s1.next = nx) :
    InvR { scene := s1.scene ++ [nx], world := s1.world ++ [nx + 1],
           pool := s1.pool ++ [(nx, nx + 1)], evicted := s1.evicted,
           next := nx + 2 } := by
  obtain ⟨hsc, hw, hnf, hns, hfresh, hev⟩ := h1
  have hnotin1 : nx ∉ s1.pool.map Prod.fst := by
    intro hmem
    obtain ⟨x, hx, hx1⟩ := List.mem_map.mp hmem
    have := (hfresh x hx).1
    omega
  have hnotin2 : nx + 1 ∉ s1.pool.map Prod.snd := by
    intro hmem
    obtain ⟨x, hx, hx2⟩ := List.mem_map.mp hmem
    have := (hfresh x hx).2
    omega
  refine ⟨?_, ?_, ?_, ?_, ?_, ?_⟩
  · show s1.scene ++ [nx] = (s1.pool ++ [(nx, nx + 1)]).map Prod.fst
    rw [List.map_append, hsc]
    rfl
  · show s1.world ++ [nx + 1] = (s1.pool ++ [(nx, nx + 1)]).map Prod.snd
    rw [List.map_append, hw]
    rfl
  · show ((s1.pool ++ [(nx, nx + 1)]).map Prod.fst).Nodup
    rw [List.map_append]
    refine List.Nodup.append hnf (List.nodup_singleton _) ?_
    intro a ha hb
    simp only [List.map_cons, List.map_nil, List.mem_singleton] at hb
    exact hnotin1 (hb ▸ ha)
  · show ((s1.pool ++ [(nx, nx + 1)]).map Prod.snd).Nodup
    rw [List.map_append]
    refine List.Nodup.append hns (List.nodup_singleton _) ?_
    intro a ha hb
    simp only [List.map_cons, List.map_nil, List.mem_singleton] at hb
    exact hnotin2 (hb ▸ ha)
  · intro e' he'
    show e'.1 < nx + 2 ∧ e'.2 < nx + 2
    rcases List.mem_append.mp he' with h | h
    · have := hfresh e' h
      omega
    · rw [List.mem_singleton] at h
      subst h
      omega
  · intro e' he'
    obtain ⟨g1, g2, g3, g4⟩ := hev e' he'
    refine ⟨?_, ?_, show e'.1 < nx + 2 by omega, show e'.2 < nx + 2 by omega⟩
    · rw [List.map_append, List.mem_append]
      rintro (h | h)
      · exact g1 h
      · simp only [List.map_cons, List.map_nil, List.mem_singleton] at h
        omega
    · rw [List.map_append, List.mem_append]
      rintro (h | h)
      · exact g2 h
      · simp only [List.map_cons, List.map_nil, List.mem_singleton] at h
        omega

/-- The invariant is preserved by a spawn. -/
theorem invR_spawn (s : RegState) (hs : InvR s) : InvR (spawnObjectR s) := by
  obtain ⟨sc, w, pool, ev, nx⟩ := s
  by_cases hc : maxObjects ≤ pool.length
  · match pool, hs, hc with
    | [], hs, hc => simp [maxObjects] at hc
    | e :: rest, hs, hc =>
        have h1 : InvR (removeObjectR ⟨sc, w, e :: rest, ev, nx⟩ e) :=
          invR_remove _ e (Or.inl (List.mem_cons_self e rest)) hs
        have heq : spawnObjectR ⟨sc, w, e :: rest, ev, nx⟩ =
            { scene := (removeObjectR ⟨sc, w, e :: rest, ev, nx⟩ e).scene ++ [nx],
              world := (removeObjectR ⟨sc, w, e :: rest, ev, nx⟩ e).world ++ [nx + 1],
              pool := (removeObjectR ⟨sc, w, e :: rest, ev, nx⟩ e).pool ++ [(nx, nx + 1)],
              evicted := (removeObjectR ⟨sc, w, e :: rest, ev, nx⟩ e).evicted,
              next := nx + 2 } := by
          simp only [spawnObjectR]
          rw [if_pos hc]
        rw [heq]
        exact invR_append nx _ h1 rfl
  · have heq : spawnObjectR ⟨sc, w, pool, ev, nx⟩ =
        { scene := sc ++ [nx], world := w ++ [nx + 1],
          pool := pool ++ [(nx, nx + 1)], evicted := ev, next := nx + 2 } := by
      simp only [spawnObjectR]
      rw [if_neg hc]
    rw [heq]
    exact invR_append nx ⟨sc, w, pool, ev, nx⟩ hs rfl

/-- Every reachable registration state satisfies the invariant. -/
theorem invR_reach (s : RegState) (hr : ReachR s) : InvR s := by
  induction hr with
  | init =>
      refine ⟨rfl, rfl, List.nodup_nil, List.nodup_nil, ?_, ?_⟩ <;> simp
  | spawn _ ih => exact invR_spawn _ ih
  | remove e he _ ih => exact invR_remove _ e he ih

/-- C3. At every observable point, each spawned `SimulatedObject` is
all-or-nothing registered: for every entry object the spawner ever created
(a live pool entry or an already-evicted one), its mesh is in the scene graph
iff the entry is in the pool list, and its body is in the physics world iff
the entry is in the pool list — so the three memberships always agree; spawn
establishes all three and eviction removes all three together. -/
theorem pairing_invariant (s : RegState) (hr : ReachR s) (e : ℕ × ℕ)
    (he : e ∈ s.pool ∨ e ∈ s.evicted) :
    (e.1 ∈ s.scene ↔ e ∈ s.pool) ∧ (e.2 ∈ s.world ↔ e ∈ s.pool) := by
  obtain ⟨hsc, hw, hnf, hns, hfresh, hev⟩ := invR_reach s hr
  by_cases hp : e ∈ s.pool
  · constructor
    · exact ⟨fun _ => hp, fun _ => by rw [hsc]; exact List.mem_map_of_mem Prod.fst hp⟩
    · exact ⟨fun _ => hp, fun _ => by rw [hw]; exact List.mem_map_of_mem Prod.snd hp⟩
  · have hee : e ∈ s.evicted := he.resolve_left hp
    obtain ⟨h1, h2, _, _⟩ := hev e hee
    constructor
    · constructor
      · intro hin
        rw [hsc] at hin
        exact absurd hin h1
      · intro h
        exact absurd h hp
    · constructor
      · intro hin
        rw [hw] at hin
        exact absurd hin h2
      · intro h
        exact absurd h hp

/-- Witness for C3: after one spawn from the initial state, the mesh id, the
body id, and the pool entry of the spawned object are all present together. -/
theorem pairing_invariant_witness :
    ((0, 1).1 ∈ (spawnObjectR ⟨[], [], [], [], 0⟩).scene ↔
        (0, 1) ∈ (spawnObjectR ⟨[], [], [], [], 0⟩).pool) ∧
      ((0, 1).2 ∈ (spawnObjectR ⟨[], [], [], [], 0⟩).world ↔
        (0, 1) ∈ (spawnObjectR ⟨[], [], [], [], 0⟩).pool) :=
  pairing_invariant _ (ReachR.spawn ReachR.init) (0, 1) (Or.inl (by decide))

/-- Simulation-side state read and written by `tick`: the previous clock
reading (`oldElapsedTime`), the accumulated `windNoiseTime`, the arguments of
the last `world.step` call, and the pooled bodies. -/
structure PhysState where
  oldElapsedTime : ℝ
  windNoiseTime : ℝ
  lastStepArgs : ℝ × ℝ × ℕ
  bodies : List Body3

/-- Hurricane particle state touched only by `updateHurricane`: elapsed
hurricane time, per-particle spin angles, spin speeds, orbit radii, vertical
positions and speeds, and the pulsing scale of the points object. -/
structure HurrState where
  time : ℝ
  angles : List ℝ
  speeds : List ℝ
  radii : List ℝ
  ys : List ℝ
  vSpeeds : List ℝ
  scalePulse : ℝ

/-- Live simulation parameters mutated only by the GUI callbacks and read by
`tick`: time scale, the wind field, the vortex field, and the two
hurricane-only parameters. -/
structure FieldCfg where
  timeScale : ℝ
  windEnabled : Bool
  windVector : ℝ × ℝ × ℝ
  windUseNoise : Bool
  vortexEnabled : Bool
  vortexStrength : ℝ
  vortexRadius : ℝ
  hurricaneEnabled : Bool
  hurricaneSpeedFactor : ℝ

/-- Vertical wrap of a hurricane particle around the half-height bound
(`hurricaneConfig.height = 8`, so the bound is 4). -/
noncomputable def wrapHeight (y : ℝ) : ℝ :=
  if 4 < y then -4 else if y < -4 then 4 else y

/-- Embedding of `updateHurricane(deltaTime)`: a no-op unless the hurricane is
enabled; otherwise advance the hurricane clock, spin each angle by
`speed * delta * hurricaneSpeedFactor`, move each particle vertically with
wrap-around, and pulse the points scale. -/
noncomputable def updateHurricane (enabled : Bool) (speedFactor delta : ℝ)
    (h : HurrState) : HurrState :=
  if enabled then
    { h with
      time := h.time + delta
      angles := List.zipWith (fun a sp => a + sp * delta * speedFactor) h.angles h.speeds
      ys := List.zipWith (fun y v => wrapHeight (y + v * delta)) h.ys h.vSpeeds
      scalePulse := 1 + Real.sin ((h.time + delta) * 0.8) * 0.04 }
  else h

/-- Per-body force application of `tick`: accumulate the wind contribution and
the vortex contribution into the body's force (the `applyForce` calls), as a
function of the body's own position and mass and the live configuration. -/
noncomputable def tickBody (cfg : FieldCfg) (wnt : ℝ) (b : Body3) : Body3 :=
  { b with force := (b.force
      + windForce cfg.windEnabled cfg.windUseNoise cfg.windVector b.mass
          b.pos.1 b.pos.2.2 wnt
      + vortexApplied cfg.vortexEnabled cfg.vortexStrength cfg.vortexRadius
          b.mass b.pos.1 b.pos.2.2) }

/-- One `tick` of the loop, with the external physics integrator abstracted as
`stepFn` (the engine's `world.step(fixed, delta, maxSubsteps)`): compute the
raw wall-clock delta, scale it by `timeScale`, advance `windNoiseTime`, step
the world with `(1/60, delta, 3)`, sweep the kill zone over the stepped pool,
apply the wind and vortex forces to the survivors, and update the hurricane
particles (the rendering has no state in this model). -/
noncomputable def tick (cfg : FieldCfg)
    (stepFn : ℝ → ℝ → ℕ → List Body3 → List Body3) (elapsed : ℝ)
    (s : PhysState × HurrState) : PhysState × HurrState :=
  let delta := (elapsed - s.1.oldElapsedTime) * cfg.timeScale
  let wnt := s.1.windNoiseTime + delta
  ({ oldElapsedTime := elapsed
     windNoiseTime := wnt
     lastStepArgs := (1 / 60, delta, 3)
     bodies := (sweepOutOfBounds (stepFn (1 / 60) delta 3 s.1.bodies)).map
       (tickBody cfg wnt) },
   updateHurricane cfg.hurricaneEnabled cfg.hurricaneSpeedFactor delta s.2)

/-- Successive ticks at the given clock readings. -/
noncomputable def runTicks (cfg : FieldCfg)
    (stepFn : ℝ → ℝ → ℕ → List Body3 → List Body3)
    (s : PhysState × HurrState) : List ℝ → PhysState × HurrState
  | [] => s
  | e :: es => runTicks cfg stepFn (tick cfg stepFn e s) es

/-- Copy of a configuration with a different time scale. -/
noncomputable def setTimeScale (cfg : FieldCfg) (v : ℝ) : FieldCfg :=
  { cfg with timeScale := v }

/-- C6. Every tick hands the physics step exactly the scaled delta
`timeScale * Δ` (with `Δ` the raw wall-clock delta), together with the fixed
target step `1/60` and at most 3 substeps — the stepped bodies are computed
from precisely that call; consequently the delta passed at `timeScale = 2` is
exactly twice the delta passed at `timeScale = 1`, for any raw delta. -/
theorem step_delta_linear (cfg : FieldCfg)
    (stepFn : ℝ → ℝ → ℕ → List Body3 → List Body3) (elapsed : ℝ)
    (s : PhysState × HurrState) :
    ((tick cfg stepFn elapsed s).1.lastStepArgs =
        (1 / 60, (elapsed - s.1.oldElapsedTime) * cfg.timeScale, 3)) ∧
      ((tick cfg stepFn elapsed s).1.bodies =
        (sweepOutOfBounds (stepFn (1 / 60)
            ((elapsed - s.1.oldElapsedTime) * cfg.timeScale) 3 s.1.bodies)).map
          (tickBody cfg
            (s.1.windNoiseTime + (elapsed - s.1.oldElapsedTime) * cfg.timeScale))) ∧
      ((tick (setTimeScale cfg 2) stepFn elapsed s).1.lastStepArgs.2.1 =
        2 * (tick (setTimeScale cfg 1) stepFn elapsed s).1.lastStepArgs.2.1) := by
  refine ⟨rfl, rfl, ?_⟩
  simp only [tick, setTimeScale]
  ring

/-- Configurations that agree on everything except the two hurricane
parameters. -/
def agreeExceptHurricane (c₁ c₂ : FieldCfg) : Prop :=
  c₁.timeScale = c₂.timeScale ∧ c₁.windEnabled = c₂.windEnabled ∧
    c₁.windVector = c₂.windVector ∧ c₁.windUseNoise = c₂.windUseNoise ∧
    c₁.vortexEnabled = c₂.vortexEnabled ∧ c₁.vortexStrength = c₂.vortexStrength ∧
    c₁.vortexRadius = c₂.vortexRadius

/-- Force application does not depend on the hurricane parameters. -/
theorem tickBody_agree (c₁ c₂ : FieldCfg) (h : agreeExceptHurricane c₁ c₂)
    (wnt : ℝ) : tickBody c₁ wnt = tickBody c₂ wnt := by
  obtain ⟨_, hwe, hwv, hwn, hve, hvs, hvr⟩ := h
  funext b
  simp only [tickBody]
  rw [hwe, hwv, hwn, hve, hvs, hvr]

/-- The physics component of one tick does not depend on the hurricane
parameters or on the hurricane particle state. -/
theorem tick_phys_agree (c₁ c₂ : FieldCfg) (h : agreeExceptHurricane c₁ c₂)
    (stepFn : ℝ → ℝ → ℕ → List Body3 → List Body3) (elapsed : ℝ)
    (p : PhysState) (h₁ h₂ : HurrState) :
    (tick c₁ stepFn elapsed (p, h₁)).1 = (tick c₂ stepFn elapsed (p, h₂)).1 := by
  have hts := h.1
  have hb := tickBody_agree c₁ c₂ h
  simp only [tick]
  rw [hts, hb]

/-- C10. The hurricane parameters are purely cosmetic: two runs identical
except for `hurricaneEnabled` and `hurricaneSpeedFactor` (and possibly the
hurricane particle state) produce identical physics states — the same pooled
bodies with the same positions, orientations and applied forces, the same
step arguments and the same wind-noise clock — after every sequence of
ticks. -/
theorem hurricane_cosmetic (c₁ c₂ : FieldCfg) (h : agreeExceptHurricane c₁ c₂)
    (stepFn : ℝ → ℝ → ℕ → List Body3 → List Body3) (times : List ℝ)
    (p : PhysState) (h₁ h₂ : HurrState) :
    (runTicks c₁ stepFn (p, h₁) times).1 = (runTicks c₂ stepFn (p, h₂) times).1 := by
  induction times generalizing p h₁ h₂ with
  | nil => rfl
  | cons e es ih =>
      have hstep := tick_phys_agree c₁ c₂ h stepFn e p h₁ h₂
      have hmain :
          (runTicks c₁ stepFn
              ((tick c₁ stepFn e (p, h₁)).1, (tick c₁ stepFn e (p, h₁)).2) es).1
            = (runTicks c₂ stepFn
              ((tick c₂ stepFn e (p, h₂)).1, (tick c₂ stepFn e (p, h₂)).2) es).1 := by
        rw [hstep]
        exact ih (tick c₂ stepFn e (p, h₂)).1
          (tick c₁ stepFn e (p, h₁)).2 (tick c₂ stepFn e (p, h₂)).2
      exact hmain

/-- Configuration with the hurricane enabled at speed factor 1. -/
noncomputable def cfgHurrOn : FieldCfg :=
  ⟨1, false, (8, 0, 0), false, false, 25, 4, true, 1⟩

/-- The same configuration with the hurricane disabled and a different speed
factor. -/
noncomputable def cfgHurrOff : FieldCfg :=
  ⟨1, false, (8, 0, 0), false, false, 25, 4, false, 2⟩

/-- Witness for C10: two concrete two-tick runs differing only in the
hurricane parameters have identical physics states. -/
theorem hurricane_cosmetic_witness :
    agreeExceptHurricane cfgHurrOn cfgHurrOff ∧
      (runTicks cfgHurrOn (fun _ _ _ bs => bs)
          (⟨0, 0, (0, 0, 0), []⟩, ⟨0, [], [], [], [], [], 1⟩) [1, 2]).1
        = (runTicks cfgHurrOff (fun _ _ _ bs => bs)
          (⟨0, 0, (0, 0, 0), []⟩, ⟨0, [], [], [], [], [], 1⟩) [1, 2]).1 :=
  ⟨⟨rfl, rfl, rfl, rfl, rfl, rfl, rfl⟩,
    hurricane_cosmetic cfgHurrOn cfgHurrOff
      ⟨rfl, rfl, rfl, rfl, rfl, rfl, rfl⟩ (fun _ _ _ bs => bs) [1, 2]
      ⟨0, 0, (0, 0, 0), []⟩ ⟨0, [], [], [], [], [], 1⟩ ⟨0, [], [], [], [], [], 1⟩⟩

/-- Lifecycle phases of the simulation loop: before the first tick is
scheduled, steady per-frame ticking, and after `ngOnDestroy`. -/
inductive LoopPhase where
  | idle
  | running
  | disposed
deriving DecidableEq

/-- Observable loop state: the lifecycle phase, whether a
`requestAnimationFrame` callback is pending (`animationId`), whether the GUI /
controls / renderer / hurricane resources are still alive, the pool, and the
body ids that still have a `collide` listener attached. -/
structure LoopState where
  phase : LoopPhase
  scheduled : Bool
  guiAlive : Bool
  controlsAlive : Bool
  rendererAlive : Bool
  hurricaneAlive : Bool
  pool : List Body3
  listeners : List ℕ

/-- Effect of `removeObject(entry)` on the loop state: detach the entry's
`collide` listener and splice the entry out of the pool. -/
noncomputable def removeObjectL (s : LoopState) (e : Body3) : LoopState :=
  { s with pool := s.pool.erase e, listeners := s.listeners.erase e.id }

/-- Embedding of `ngOnDestroy`: cancel the pending animation frame, destroy
the GUI, dispose controls and renderer, call `removeObject` on a snapshot of
every pooled entry, and dispose the hurricane resources.  No code path can
re-enter `running`. -/
noncomputable def destroyLoop (s : LoopState) : LoopState :=
  let s1 := { s with
    phase := LoopPhase.disposed
    scheduled := false
    guiAlive := false
    controlsAlive := false
    rendererAlive := false }
  let s2 := List.foldl removeObjectL s1 s.pool
  { s2 with hurricaneAlive := false }

/-- Scheduling effect of one `tick`: the first statement re-requests the next
animation frame, and the body ends with the kill-zone sweep over the pool
(the physics step is abstracted as the position update `upd`). -/
noncomputable def tickLoop (upd : ℕ → ℝ × ℝ × ℝ) (s : LoopState) : LoopState :=
  { s with
    scheduled := true
    pool := sweepOutOfBounds (s.pool.map fun b => { b with pos := upd b.id }) }

/-- Listener bookkeeping of a spawn: `enforcePoolLimit` detaches the evicted
entry's listener (when at capacity) and the new body's listener is attached. -/
noncomputable def spawnListeners (pool : List Body3) (ls : List ℕ) (b : Body3) :
    List ℕ :=
  (if maxObjects ≤ pool.length then
    match pool with
    | [] => ls
    | e :: _ => ls.erase e.id
  else ls) ++ [b.id]

/-- Events driving the loop state: the initial scene start
(`ngAfterViewInit`), a browser animation frame, the GUI spawn and reset
buttons, and the component teardown (`ngOnDestroy`). -/
inductive LoopEv where
  | start
  | frame (upd : ℕ → ℝ × ℝ × ℝ)
  | spawn (b : Body3)
  | reset
  | destroy

/-- Transition relation of the loop: a frame fires only while a scheduled
callback is pending and the loop is running; GUI events fire only while the
GUI is alive; teardown happens once, from the running phase. -/
inductive LoopStep : LoopState → LoopEv → LoopState → Prop
  | start {s : LoopState} (h : s.phase = LoopPhase.idle) :
      LoopStep s LoopEv.start
        { s with phase := LoopPhase.running, scheduled := true }
  | frame {s : LoopState} (upd : ℕ → ℝ × ℝ × ℝ) (hs : s.scheduled = true)
      (hp : s.phase = LoopPhase.running) :
      LoopStep s (LoopEv.frame upd) (tickLoop upd s)
  | spawn {s : LoopState} (b : Body3) (hg : s.guiAlive = true) :
      LoopStep s (LoopEv.spawn b)
        { s with
          pool := spawnObject s.pool b
          listeners := spawnListeners s.pool s.listeners b }
  | reset {s : LoopState} (hg : s.guiAlive = true) :
      LoopStep s LoopEv.reset
        { s with
          pool := resetAll s.pool
          listeners := List.foldl (fun ls e => ls.erase e.id) s.listeners s.pool }
  | destroy {s : LoopState} (hp : s.phase = LoopPhase.running) :
      LoopStep s LoopEv.destroy (destroyLoop s)

/-- State of the freshly constructed component, before `ngAfterViewInit`. -/
noncomputable def loopInit : LoopState :=
  ⟨LoopPhase.idle, false, true, true, true, true, [], []⟩

/-- Reachable loop states. -/
inductive ReachL : LoopState → Prop
  | init : ReachL loopInit
  | step {s : LoopState} {e : LoopEv} {s' : LoopState} :
      ReachL s → LoopStep s e s' → ReachL s'

/-- The pool/listener fold of `destroyLoop` never touches the other fields,
and its pool and listener components are plain erase folds. -/
theorem foldl_removeObjectL_fields (l : List Body3) :
    ∀ s0 : LoopState,
      (List.foldl removeObjectL s0 l).phase = s0.phase ∧
      (List.foldl removeObjectL s0 l).scheduled = s0.scheduled ∧
      (List.foldl removeObjectL s0 l).guiAlive = s0.guiAlive ∧
      (List.foldl removeObjectL s0 l).controlsAlive = s0.controlsAlive ∧
      (List.foldl removeObjectL s0 l).rendererAlive = s0.rendererAlive ∧
      (List.foldl removeObjectL s0 l).hurricaneAlive = s0.hurricaneAlive ∧
      (List.foldl removeObjectL s0 l).pool
        = List.foldl (fun p e => p.erase e) s0.pool l ∧
      (List.foldl removeObjectL s0 l).listeners
        = List.foldl (fun ls e => ls.erase e.id) s0.listeners l := by
  induction l with
  | nil => intro s0; exact ⟨rfl, rfl, rfl, rfl, rfl, rfl, rfl, rfl⟩
  | cons e l ih =>
      intro s0
      simpa only [List.foldl_cons] using ih (removeObjectL s0 e)

/-- Occurrence count after an unconditional erase fold of `f`-images of a
snapshot over an accumulator list. -/
theorem count_foldl_erase_plain {α β : Type} [BEq β] [LawfulBEq β]
    (f : α → β) (l : List α) :
    ∀ (ls : List β) (x : β),
      List.count x (List.foldl (fun acc e => acc.erase (f e)) ls l)
        = List.count x ls - List.count x (l.map f) := by
  induction l with
  | nil => intro ls x; simp
  | cons e l ih =>
      intro ls x
      rw [List.foldl_cons, ih, List.count_erase, List.map_cons, List.count_cons]
      by_cases hx : x = f e
      · simp [hx, Nat.sub_sub, Nat.add_comm]
      · have hbeq : (f e == x) = false := by
          simp [beq_iff_eq]
          exact fun hh => hx hh.symm
        simp [hx, hbeq]

/-- An erase fold over the images of the very list being erased empties the
accumulator. -/
theorem foldl_erase_map_eq_nil {α β : Type} [BEq β] [LawfulBEq β]
    (f : α → β) (l : List α) (ls : List β) (h : ls = l.map f) :
    List.foldl (fun acc e => acc.erase (f e)) ls l = [] := by
  rw [List.eq_nil_iff_forall_not_mem]
  intro x hx
  have hc : List.count x (List.foldl (fun acc e => acc.erase (f e)) ls l) = 0 := by
    rw [count_foldl_erase_plain f l ls x, h, Nat.sub_self]
  have := List.count_pos_iff.mpr hx
  omega

/-- Invariant: once disposed, the pending frame is cancelled and the GUI is
destroyed. -/
def InvL (s : LoopState) : Prop :=
  s.phase = LoopPhase.disposed → (s.scheduled = false ∧ s.guiAlive = false)

/-- Every reachable loop state satisfies the disposal invariant. -/
theorem invL_reach (s : LoopState) (hr : ReachL s) : InvL s := by
  induction hr with
  | init =>
      intro h
      exact absurd h (by simp [loopInit])
  | step hr hstep ih =>
      cases hstep with
      | start h =>
          intro hd
          exact absurd hd (by simp)
      | frame upd hs hp =>
          intro hd
          exact LoopPhase.noConfusion (hp.symm.trans hd)
      | spawn b hg =>
          intro hd
          exact ih hd
      | reset hg =>
          intro hd
          exact ih hd
      | destroy hp =>
          intro _
          obtain ⟨h1, h2, h3, _, _, _, _, _⟩ :=
            foldl_removeObjectL_fields _ _
          exact ⟨h2, h3⟩

/-- C9. Teardown (`Running → Disposed`) cancels the scheduled tick and
disposes the GUI, controls, renderer and hurricane resources; it evicts every
pooled object (the pool ends empty) with its collision listener detached (the
listener list ends empty); and from a disposed state no transition whatsoever
is possible — no further tick ever executes and the loop can never return to
`Running`. -/
theorem teardown_terminal :
    (∀ s : LoopState,
        (destroyLoop s).phase = LoopPhase.disposed ∧
        (destroyLoop s).scheduled = false ∧
        (destroyLoop s).guiAlive = false ∧
        (destroyLoop s).controlsAlive = false ∧
        (destroyLoop s).rendererAlive = false ∧
        (destroyLoop s).hurricaneAlive = false ∧
        (destroyLoop s).pool = []) ∧
      (∀ s : LoopState, s.listeners = s.pool.map Body3.id →
        (destroyLoop s).listeners = []) ∧
      (∀ s : LoopState, ReachL s → s.phase = LoopPhase.disposed →
        ∀ (e : LoopEv) (s' : LoopState), ¬ LoopStep s e s') := by
  refine ⟨?_, ?_, ?_⟩
  · intro s
    obtain ⟨h1, h2, h3, h4, h5, _, h7, _⟩ :=
      foldl_removeObjectL_fields s.pool
        { s with
          phase := LoopPhase.disposed
          scheduled := false
          guiAlive := false
          controlsAlive := false
          rendererAlive := false }
    refine ⟨h1, h2, h3, h4, h5, rfl, ?_⟩
    show (List.foldl removeObjectL _ s.pool).pool = []
    rw [h7]
    exact resetAll_eq_nil s.pool
  · intro s hl
    obtain ⟨_, _, _, _, _, _, _, h8⟩ :=
      foldl_removeObjectL_fields s.pool
        { s with
          phase := LoopPhase.disposed
          scheduled := false
          guiAlive := false
          controlsAlive := false
          rendererAlive := false }
    show (List.foldl removeObjectL _ s.pool).listeners = []
    rw [h8]
    exact foldl_erase_map_eq_nil Body3.id s.pool s.listeners hl
  · intro s hr hd e s' hstep
    obtain ⟨hsch, hgui⟩ := invL_reach s hr hd
    cases hstep with
    | start h => rw [hd] at h; cases h
    | frame upd hs hp => rw [hd] at hp; cases hp
    | spawn b hg => rw [hgui] at hg; cases hg
    | reset hg => rw [hgui] at hg; cases hg
    | destroy hp => rw [hd] at hp; cases hp

/-- Witness for C9: the concrete disposed state reached by starting the loop
and tearing it down admits no further reset transition. -/
theorem teardown_terminal_witness :
    ¬ LoopStep
        (destroyLoop { loopInit with phase := LoopPhase.running, scheduled := true })
        LoopEv.reset loopInit :=
  teardown_terminal.2.2 _
    (ReachL.step (ReachL.step ReachL.init (LoopStep.start rfl))
      (LoopStep.destroy rfl))
    rfl LoopEv.reset loopInit

end PhysicsSandbox
